import Mathlib

/-!
Verification of the algorithmic core of the lerobot_alohamini repository:
the lift axis controller (src/lerobot/robots/alohamini/lift_axis.py) and
the three-omniwheel kinematics (examples/debug/wheels.py).

The Python code is embedded shallowly.  The lift axis controller works on
exact rationals (its arithmetic is rational throughout); the wheel
kinematics, which use trigonometry, are embedded over the real numbers.
Bus interaction is modelled explicitly: every value a method reads from
the Feetech bus is passed in as an argument (or as a stream of readings),
and the writes a method performs are collected in a list.
-/

namespace AlohaMini

/-- Python int() conversion applied to a number: truncation toward zero. -/
def pyInt (q : ℚ) : ℤ := if q < 0 then ⌈q⌉ else ⌊q⌋

/-- Record of a write performed on the motor bus.  The operating mode write
always carries OperatingMode.VELOCITY.value (a constant of the external
SDK), so its payload is omitted. -/
inductive BusWrite where
  | opMode : BusWrite
  | goalVelocity : ℚ → BusWrite
  | torqueEnable : ℤ → BusWrite
deriving DecidableEq, Repr

/-- Configuration of the lift axis: the fields of LiftAxisConfig that the
controller logic reads, with their default values from lift_axis.py. -/
structure LiftCfg where
  enabled : Bool := true
  lead_mm_per_rev : ℚ := 84
  output_gear_ratio : ℚ := 1
  soft_min_mm : ℚ := 0
  soft_max_mm : ℚ := 600
  home_down_speed : ℤ := 1000
  home_stall_current_ma : ℤ := 60
  kp_vel : ℚ := 300
  v_max : ℤ := 1000
  on_target_mm : ℚ := 1
  dir_sign : ℤ := -1
deriving DecidableEq, Repr

/-- The default configuration (all defaults of LiftAxisConfig). -/
def cfgDefault : LiftCfg := {}

/-- Mutable state of a LiftAxis object: the fields set by LiftAxis.__init__
together with the enabled flag computed there. -/
structure LiftState where
  enabled : Bool
  last_tick : ℚ := 0
  extended_ticks : ℚ := 0
  z0_deg : ℚ := 0
  target_mm : Option ℚ := some 0
  configured : Bool := false
deriving DecidableEq, Repr

/-- LiftAxis.__init__: the axis is enabled when the configuration enables it
and the selected bus object exists.  Note that the pending target is
initialised to the float 0.0 (source line 71), not to None. -/
def mkLiftAxis (cfg : LiftCfg) (busPresent : Bool) : LiftState :=
  { enabled := cfg.enabled && busPresent }

/-- self._ticks_per_rev = 4096.0 -/
def ticksPerRev : ℚ := 4096

/-- self._deg_per_tick = 360.0 / self._ticks_per_rev -/
def degPerTick : ℚ := 360 / 4096

/-- self._mm_per_deg = (cfg.lead_mm_per_rev * cfg.output_gear_ratio) / 360.0 -/
def mmPerDeg (cfg : LiftCfg) : ℚ := cfg.lead_mm_per_rev * cfg.output_gear_ratio / 360

/-- LiftAxis._update_extended_ticks, with the value returned by the
Present_Position bus read passed in as cur. -/
def update_extended_ticks (s : LiftState) (cur : ℚ) : LiftState :=
  if !s.enabled then s else
  let delta := cur - s.last_tick
  let half := ticksPerRev * (1/2)
  let delta2 := if delta > half then delta - ticksPerRev
    else if delta < -half then delta + ticksPerRev else delta
  { s with extended_ticks := s.extended_ticks + delta2, last_tick := cur }

/-- LiftAxis._extended_deg -/
def extended_deg (cfg : LiftCfg) (s : LiftState) : ℚ :=
  (cfg.dir_sign : ℚ) * s.extended_ticks * degPerTick

/-- LiftAxis.get_height_mm: returns the height together with the updated
state (the method mutates the extended tick accumulator). -/
def get_height_mm (cfg : LiftCfg) (s : LiftState) (pos : ℚ) : ℚ × LiftState :=
  if !s.enabled then (0, s) else
  let s1 := update_extended_ticks s pos
  ((extended_deg cfg s1 - s1.z0_deg) * mmPerDeg cfg, s1)

/-- LiftAxis.configure, with the Present_Position read passed in as pos.
Returns the new state and the writes performed. -/
def configure (s : LiftState) (pos : ℚ) : LiftState × List BusWrite :=
  if !s.enabled then (s, []) else
  if s.configured then (s, []) else
  ({ s with last_tick := pos, extended_ticks := 0, configured := true },
   [BusWrite.opMode])

/-- LiftAxis.set_height_target_mm -/
def set_height_target_mm (cfg : LiftCfg) (s : LiftState) (h : ℚ) : LiftState :=
  if !s.enabled then s else
  { s with target_mm := some (max cfg.soft_min_mm (min cfg.soft_max_mm h)) }

/-- LiftAxis.clear_target -/
def clear_target (s : LiftState) : LiftState × List BusWrite :=
  if !s.enabled then (s, []) else
  ({ s with target_mm := none }, [BusWrite.goalVelocity 0])

/-- LiftAxis.update, with the Present_Position read passed in as pos.
Returns the new state and the Goal_Velocity writes performed.  The trailing
Present_Current debug read of the source happens after the write and does
not affect state or writes, so it is not modelled. -/
def update (cfg : LiftCfg) (s : LiftState) (pos : ℚ) : LiftState × List BusWrite :=
  if !s.enabled then (s, []) else
  match s.target_mm with
  | none => (s, [])
  | some tgt =>
    let p := get_height_mm cfg s pos
    let err := tgt - p.1
    if |err| ≤ cfg.on_target_mm then
      ({ p.2 with target_mm := none }, [BusWrite.goalVelocity 0])
    else
      let v := cfg.kp_vel * err
      let v2 := max (-(cfg.v_max : ℚ)) (min (cfg.v_max : ℚ) v)
      (p.2, [BusWrite.goalVelocity ((pyInt ((cfg.dir_sign : ℚ) * v2) : ℤ) : ℚ)])

/-- Action mapping for LiftAxis.apply_action: the optional height key and
the optional direct velocity key. -/
structure LiftAction where
  height_mm : Option ℚ := none
  vel : Option ℚ := none

/-- LiftAxis.apply_action.  pos is the result of the Present_Position read
performed inside get_height_mm in the soft limit guard; pos = none models
that read raising an exception (in which case the guard is skipped, the
state is unchanged by the guard, and the command is written as clamped). -/
def apply_action (cfg : LiftCfg) (s : LiftState) (a : LiftAction) (pos : Option ℚ) :
    LiftState × List BusWrite :=
  if !s.enabled then (s, []) else
  let s1 := match a.height_mm with
    | some h => set_height_target_mm cfg s h
    | none => s
  match a.vel with
  | none => (s1, [])
  | some vq =>
    let s2 := { s1 with target_mm := none }
    let v0 : ℤ := pyInt vq
    let v1 : ℤ := max (-cfg.v_max) (min cfg.v_max v0)
    let g := match pos with
      | some p =>
        let q := get_height_mm cfg s2 p
        (if (q.1 ≥ cfg.soft_max_mm ∧ v1 > 0) ∨ (q.1 ≤ cfg.soft_min_mm ∧ v1 < 0)
          then (0 : ℤ) else v1, q.2)
      | none => (v1, s2)
    (g.2, [BusWrite.goalVelocity ((g.1 * cfg.dir_sign : ℤ) : ℚ)])

/-- Simulated bus for LiftAxis.home: the n-th Present_Position read returns
pos n; the n-th Present_Current read returns cur n, where none models the
read raising an exception (caught by the source). -/
structure HomeSim where
  pos : ℕ → ℚ
  cur : ℕ → Option ℚ

/-- Result of one iteration of the homing descent loop. -/
structure HomeIterOut where
  s : LiftState
  lastT : ℚ
  stuck : ℕ
  brk : Bool
deriving DecidableEq, Repr

/-- One iteration of the for loop of LiftAxis.home (source lines 124-145):
update the extended ticks from the position read, detect movement, read the
current if requested (an exception yields cur_ma = 0), update the stall
debounce counter; brk records whether the loop breaks after this
iteration. -/
def homeIter (cfg : LiftCfg) (useCurrent : Bool) (posRead : ℚ) (curRead : Option ℚ)
    (s : LiftState) (lastT : ℚ) (stuck : ℕ) : HomeIterOut :=
  let s1 := update_extended_ticks s posRead
  let now := s1.last_tick
  let moved : Bool := decide (|now - lastT| > 10)
  let cur_ma : ℚ := if useCurrent then
      (match curRead with
       | some c => (pyInt c : ℚ) * (13/2)
       | none => 0)
    else 0
  let stuck2 := if (useCurrent && decide (cur_ma ≥ (cfg.home_stall_current_ma : ℚ))) || !moved
    then stuck + 1 else 0
  { s := s1, lastT := now, stuck := stuck2, brk := decide (stuck2 ≥ 2) }

/-- The homing descent loop, driven by the remaining iteration budget
(600 in the source).  Arguments after the simulation: fuel, index of the
next position read, index of the next current read, state, local last_tick,
stall counter.  Returns the state at loop exit and the index of the next
position read. -/
def homeLoop (cfg : LiftCfg) (useCurrent : Bool) (sim : HomeSim) :
    ℕ → ℕ → ℕ → LiftState → ℚ → ℕ → LiftState × ℕ
  | 0, pIdx, _, s, _, _ => (s, pIdx)
  | Nat.succ fuel, pIdx, cIdx, s, lastT, stuck =>
    let r := homeIter cfg useCurrent (sim.pos pIdx) (sim.cur cIdx) s lastT stuck
    if r.brk then (r.s, pIdx + 1)
    else homeLoop cfg useCurrent sim fuel (pIdx + 1)
      (cIdx + (if useCurrent then 1 else 0)) r.s r.lastT r.stuck

/-- LiftAxis.home: configure (one position read when not yet configured),
command the descent, read the initial reference tick, run the descent loop,
disable torque, re-sample the extended ticks, set the zero reference, and
finish with the get_height_mm call of the source (one more read).  The
time.sleep pauses have no effect on the modelled state and are dropped. -/
def home (cfg : LiftCfg) (useCurrent : Bool) (sim : HomeSim) (s : LiftState) :
    LiftState × List BusWrite :=
  if !s.enabled then (s, []) else
  let c := configure s (sim.pos 0)
  let pIdx0 := if s.configured then 0 else 1
  let lastT : ℚ := (pyInt (sim.pos pIdx0) : ℚ)
  let lp := homeLoop cfg useCurrent sim 600 (pIdx0 + 1) 0 c.1 lastT 0
  let s2 := update_extended_ticks lp.1 (sim.pos lp.2)
  let s3 := { s2 with z0_deg := extended_deg cfg s2 }
  let g := get_height_mm cfg s3 (sim.pos (lp.2 + 1))
  (g.2, c.2 ++ [BusWrite.goalVelocity (cfg.home_down_speed : ℚ), BusWrite.torqueEnable 0])

/-- Folding _update_extended_ticks over a list of successive position
readings. -/
def updateTicksRun (s : LiftState) (ps : List ℚ) : LiftState :=
  ps.foldl update_extended_ticks s

/-- An enabled idle axis state used for concrete instantiations. -/
def sIdle : LiftState := { enabled := true }

lemma update_extended_ticks_enabled (s : LiftState) (c : ℚ) :
    (update_extended_ticks s c).enabled = s.enabled := by
  unfold update_extended_ticks; split <;> rfl

lemma update_extended_ticks_target (s : LiftState) (c : ℚ) :
    (update_extended_ticks s c).target_mm = s.target_mm := by
  unfold update_extended_ticks; split <;> rfl

lemma update_extended_ticks_last (s : LiftState) (hen : s.enabled = true) (c : ℚ) :
    (update_extended_ticks s c).last_tick = c := by
  simp [update_extended_ticks, hen]

/-- update is a no-op without an active target. -/
lemma update_none (cfg : LiftCfg) (s : LiftState) (pos : ℚ) (h : s.target_mm = none) :
    update cfg s pos = (s, []) := by
  cases hen : s.enabled <;> simp [update, hen, h]

/-- update in the on-target branch. -/
lemma update_near (cfg : LiftCfg) (s : LiftState) (pos tgt : ℚ)
    (hen : s.enabled = true) (ht : s.target_mm = some tgt)
    (hnear : |tgt - (get_height_mm cfg s pos).1| ≤ cfg.on_target_mm) :
    update cfg s pos
      = ({ (get_height_mm cfg s pos).2 with target_mm := none },
         [BusWrite.goalVelocity 0]) := by
  simp [update, hen, ht, hnear]

/-- update in the proportional branch. -/
lemma update_far (cfg : LiftCfg) (s : LiftState) (pos tgt : ℚ)
    (hen : s.enabled = true) (ht : s.target_mm = some tgt)
    (hfar : ¬ (|tgt - (get_height_mm cfg s pos).1| ≤ cfg.on_target_mm)) :
    update cfg s pos
      = ((get_height_mm cfg s pos).2,
         [BusWrite.goalVelocity ((pyInt ((cfg.dir_sign : ℚ) *
            (max (-(cfg.v_max : ℚ)) (min (cfg.v_max : ℚ)
              (cfg.kp_vel * (tgt - (get_height_mm cfg s pos).1))))) : ℤ) : ℚ)]) := by
  simp [update, hen, ht, hfar]

lemma updateTicksRun_enabled (l : List ℚ) : ∀ s : LiftState,
    (updateTicksRun s l).enabled = s.enabled := by
  induction l with
  | nil => intro s; rfl
  | cons a t ih =>
    intro s
    have h1 : updateTicksRun s (a :: t) = updateTicksRun (update_extended_ticks s a) t := rfl
    rw [h1, ih (update_extended_ticks s a), update_extended_ticks_enabled]

/-- One exact unwrapping step: when the previous and the current raw reading
are both in [0, 4096), the true motion d satisfies the less than half a
revolution bound, and the current reading is the previous one advanced by d
modulo one revolution, the wrap correction recovers exactly d. -/
lemma update_extended_ticks_exact (s : LiftState) (hen : s.enabled = true)
    (r r2 d : ℚ) (k : ℤ)
    (hr0 : 0 ≤ r) (hr1 : r < 4096) (hs0 : 0 ≤ r2) (hs1 : r2 < 4096)
    (hd : |d| < 2048) (hw : r2 = r + d + 4096 * k) (hl : s.last_tick = r) :
    update_extended_ticks s r2
      = { s with extended_ticks := s.extended_ticks + d, last_tick := r2 } := by
  obtain ⟨hd1, hd2⟩ := abs_lt.mp hd
  have hk1 : (k : ℚ) < 2 := by nlinarith
  have hk2 : (-2 : ℚ) < (k : ℚ) := by nlinarith
  have hk1z : k < 2 := by exact_mod_cast hk1
  have hk2z : -2 < k := by exact_mod_cast hk2
  unfold update_extended_ticks
  rw [hen, hl]
  simp only [Bool.not_true, Bool.false_eq_true, if_false, ticksPerRev]
  interval_cases k
  · -- k = -1: a forward wrap seen as a large negative raw jump,
    -- corrected by adding a revolution
    have hc1 : ¬ (r2 - r > 4096 * (1/2)) := by
      rw [hw]; push_cast; linarith
    have hc2 : r2 - r < -(4096 * (1/2)) := by
      rw [hw]; push_cast; linarith
    rw [if_neg hc1, if_pos hc2]
    have hvv : r2 - r + 4096 = d := by rw [hw]; push_cast; ring
    rw [hvv]
  · -- k = 0: no wrap
    have hc1 : ¬ (r2 - r > 4096 * (1/2)) := by
      rw [hw]; push_cast; linarith
    have hc2 : ¬ (r2 - r < -(4096 * (1/2))) := by
      rw [hw]; push_cast; linarith
    rw [if_neg hc1, if_neg hc2]
    have hvv : r2 - r = d := by rw [hw]; push_cast; ring
    rw [hvv]
  · -- k = 1: a backward wrap seen as a large positive raw jump,
    -- corrected by subtracting a revolution
    have hc1 : r2 - r > 4096 * (1/2) := by
      rw [hw]; push_cast; linarith
    rw [if_pos hc1]
    have hvv : r2 - r - 4096 = d := by rw [hw]; push_cast; ring
    rw [hvv]

/-- Claim C2: feeding _update_extended_ticks a sequence of raw readings in
[0, 4096) whose true per-step motion d i is less than half a revolution in
magnitude (the reading sequence realising that motion modulo one
revolution), the accumulator gains exactly the sum of the true deltas and
last_tick always ends at the current raw reading; in particular continuous
rotation across full revolutions accumulates with no discontinuity at wrap
boundaries. -/
theorem C2_tick_unwrapping (s : LiftState) (hen : s.enabled = true)
    (r d : ℕ → ℚ) (n : ℕ)
    (hrange : ∀ i, i ≤ n → 0 ≤ r i ∧ r i < 4096)
    (hsmall : ∀ i, i < n → |d i| < 2048)
    (hwrap : ∀ i, i < n → ∃ k : ℤ, r (i + 1) = r i + d i + 4096 * k)
    (hl : s.last_tick = r 0) :
    (updateTicksRun s ((List.range n).map fun i => r (i + 1))).extended_ticks
        = s.extended_ticks + ∑ i in Finset.range n, d i ∧
    (updateTicksRun s ((List.range n).map fun i => r (i + 1))).last_tick = r n := by
  induction n with
  | zero => simpa [updateTicksRun] using hl
  | succ m ih =>
    have ihm := ih (fun i hi => hrange i (le_trans hi (Nat.le_succ m)))
      (fun i hi => hsmall i (Nat.lt_succ_of_lt hi))
      (fun i hi => hwrap i (Nat.lt_succ_of_lt hi))
    have hsplit : (List.range (m + 1)).map (fun i => r (i + 1))
        = ((List.range m).map fun i => r (i + 1)) ++ [r (m + 1)] := by
      rw [List.range_succ, List.map_append]
      rfl
    have hfold : updateTicksRun s ((List.range (m + 1)).map fun i => r (i + 1))
        = update_extended_ticks
            (updateTicksRun s ((List.range m).map fun i => r (i + 1))) (r (m + 1)) := by
      rw [hsplit]
      unfold updateTicksRun
      rw [List.foldl_append]
      rfl
    set sm := updateTicksRun s ((List.range m).map fun i => r (i + 1)) with hsm
    have hsme : sm.enabled = true := by rw [hsm, updateTicksRun_enabled]; exact hen
    obtain ⟨k, hk⟩ := hwrap m (Nat.lt_succ_self m)
    have hstep := update_extended_ticks_exact sm hsme (r m) (r (m + 1)) (d m) k
      (hrange m (le_trans (Nat.le_succ m) (le_refl _))).1
      (hrange m (Nat.le_succ m)).2
      (hrange (m + 1) (le_refl _)).1
      (hrange (m + 1) (le_refl _)).2
      (hsmall m (Nat.lt_succ_self m)) hk ihm.2
    rw [hfold, hstep]
    constructor
    · simp only [ihm.1, Finset.sum_range_succ]
      ring
    · rfl

/-- Readings used by the tick unwrapping witness: one and a half turns of
forward rotation in steps of 2000 raw ticks, wrapping once. -/
def wR (i : ℕ) : ℚ :=
  if i = 0 then 0 else if i = 1 then 2000 else if i = 2 then 4000 else 1904

/-- Per-step true deltas used by the tick unwrapping witness. -/
def wD (_ : ℕ) : ℚ := 2000

theorem C2_witness :
    (updateTicksRun sIdle ((List.range 3).map fun i => wR (i + 1))).extended_ticks
      = sIdle.extended_ticks + ∑ i in Finset.range 3, wD i ∧
    (updateTicksRun sIdle ((List.range 3).map fun i => wR (i + 1))).last_tick = wR 3 := by
  refine C2_tick_unwrapping sIdle rfl wR wD 3 ?_ ?_ ?_ rfl
  · intro i hi
    interval_cases i <;> norm_num [wR]
  · intro i hi
    norm_num [wD]
  · intro i hi
    interval_cases i
    · exact ⟨0, by norm_num [wR, wD]⟩
    · exact ⟨0, by norm_num [wR, wD]⟩
    · exact ⟨-1, by norm_num [wR, wD]⟩

/-- Claim C5: on an enabled axis with an active target, when update observes
an error within the on-target tolerance it writes a zero Goal_Velocity and
clears the target to None, and any update call on a state without a target
performs no bus write and leaves the state unchanged, so no further motion
is commanded until a new target is set. -/
theorem C5_on_target_terminal (cfg : LiftCfg) (s : LiftState) (pos tgt : ℚ)
    (hen : s.enabled = true) (ht : s.target_mm = some tgt)
    (hnear : |tgt - (get_height_mm cfg s pos).1| ≤ cfg.on_target_mm) :
    (update cfg s pos).1.target_mm = none ∧
    (update cfg s pos).2 = [BusWrite.goalVelocity 0] ∧
    ∀ (s2 : LiftState) (p2 : ℚ), s2.target_mm = none → update cfg s2 p2 = (s2, []) := by
  rw [update_near cfg s pos tgt hen ht hnear]
  exact ⟨rfl, rfl, fun s2 p2 h2 => update_none cfg s2 p2 h2⟩

theorem C5_witness : (update cfgDefault sIdle 0).2 = [BusWrite.goalVelocity 0] :=
  (C5_on_target_terminal cfgDefault sIdle 0 0 rfl rfl (by
    norm_num [get_height_mm, sIdle, update_extended_ticks, extended_deg, mmPerDeg,
      degPerTick, ticksPerRev, cfgDefault])).2.1

/-- Claim C6: with the default configuration (kp_vel = 300, v_max = 1000),
update on an enabled configured axis with target 100 mm and current height
0 mm computes the clamp of the proportional term, clamp(300 * 100, -1000,
1000) = 1000, and the value written to the bus is dir_sign * 1000. -/
theorem C6_clamp_before_sign :
    cfgDefault.kp_vel = 300 ∧ cfgDefault.v_max = 1000 ∧
    max (-(cfgDefault.v_max : ℚ)) (min (cfgDefault.v_max : ℚ) (cfgDefault.kp_vel * 100))
      = 1000 ∧
    (update cfgDefault (set_height_target_mm cfgDefault
        ((configure (mkLiftAxis cfgDefault true) 0).1) 100) 0).2
      = [BusWrite.goalVelocity (-1000)] ∧
    (-1000 : ℚ) = (cfgDefault.dir_sign : ℚ) * 1000 := by
  refine ⟨rfl, rfl, by norm_num [cfgDefault], ?_, by norm_num [cfgDefault]⟩
  norm_num [update, get_height_mm, set_height_target_mm, configure, mkLiftAxis,
    update_extended_ticks, extended_deg, mmPerDeg, degPerTick, ticksPerRev,
    cfgDefault, pyInt]
  have h1 : ⌈(-1000 : ℚ)⌉ = (-1000 : ℤ) := by
    rw [Int.ceil_eq_iff]
    norm_num
  rw [h1]
  norm_num

lemma get_height_mm_fst_target (cfg : LiftCfg) (s : LiftState) (t : Option ℚ) (p : ℚ) :
    (get_height_mm cfg { s with target_mm := t } p).1 = (get_height_mm cfg s p).1 := by
  rcases s with ⟨en, lt, et, z0, tm, cf⟩
  cases en <;> simp [get_height_mm, update_extended_ticks, extended_deg]

lemma get_height_mm_snd_target (cfg : LiftCfg) (s : LiftState) (p : ℚ) :
    (get_height_mm cfg s p).2.target_mm = s.target_mm := by
  unfold get_height_mm
  split_ifs
  · rfl
  · exact update_extended_ticks_target s p

lemma clamp_abs_le (vmax : ℤ) (hvm : 0 ≤ vmax) (x : ℤ) :
    |max (-vmax) (min vmax x)| ≤ vmax := by
  rw [abs_le]
  exact ⟨le_max_left _ _, max_le (by omega) (min_le_left _ _)⟩

/-- Claim C7: apply_action with a direct velocity key on an enabled axis
clears any pending height target, writes a single Goal_Velocity command
whose magnitude is clamped to v_max, and writes zero whenever the current
height is at or beyond soft_max_mm with a positive commanded velocity or at
or below soft_min_mm with a negative commanded velocity. -/
theorem C7_direct_velocity (cfg : LiftCfg) (s : LiftState) (a : LiftAction) (v p : ℚ)
    (hen : s.enabled = true) (hv : a.vel = some v)
    (hdir : cfg.dir_sign = 1 ∨ cfg.dir_sign = -1) (hvm : 0 ≤ cfg.v_max) :
    (apply_action cfg s a (some p)).1.target_mm = none ∧
    ∃ w : ℤ, (apply_action cfg s a (some p)).2 = [BusWrite.goalVelocity (w : ℚ)] ∧
      |w| ≤ cfg.v_max ∧
      ((((get_height_mm cfg s p).1 ≥ cfg.soft_max_mm ∧ 0 < v) ∨
        ((get_height_mm cfg s p).1 ≤ cfg.soft_min_mm ∧ v < 0)) → w = 0) := by
  have habs : ∀ g1 : ℤ, |g1| ≤ cfg.v_max → |g1 * cfg.dir_sign| ≤ cfg.v_max := by
    intro g1 hg
    rcases hdir with h | h <;> rw [h] <;> simpa using hg
  have hpynn : 0 < v → 0 ≤ pyInt v := by
    intro h0
    rw [pyInt, if_neg (not_lt.mpr (le_of_lt h0))]
    exact Int.floor_nonneg.mpr (le_of_lt h0)
  have hpynp : v < 0 → pyInt v ≤ 0 := by
    intro h0
    rw [pyInt, if_pos h0]
    exact Int.ceil_le.mpr (by exact_mod_cast le_of_lt h0)
  have hcond : ¬ ((!s.enabled) = true) := by
    rw [hen]
    simp
  rcases ha : a.height_mm with _ | hh
  · -- no height key in the action
    unfold apply_action
    rw [ha, hv, if_neg hcond]
    dsimp only
    have hq : (get_height_mm cfg { s with target_mm := none } p).1
        = (get_height_mm cfg s p).1 := get_height_mm_fst_target cfg s none p
    refine ⟨by rw [get_height_mm_snd_target], _, rfl, ?_, ?_⟩
    · split_ifs with hc
      · simpa using habs 0 (by simpa using hvm)
      · exact habs _ (clamp_abs_le cfg.v_max hvm (pyInt v))
    · intro hb
      rw [← hq] at hb
      set v1 : ℤ := max (-cfg.v_max) (min cfg.v_max (pyInt v)) with hv1
      rcases hb with ⟨hmax, h0⟩ | ⟨hmin, h0⟩
      · have hnn : 0 ≤ v1 := le_trans (le_min hvm (hpynn h0)) (le_max_right _ _)
        rcases lt_or_eq_of_le hnn with hpos | hzero
        · rw [if_pos (Or.inl ⟨hmax, hpos⟩), zero_mul]
        · split_ifs <;> simp [← hzero]
      · have hnp : v1 ≤ 0 := max_le (by omega) (le_trans (min_le_right _ _) (hpynp h0))
        rcases lt_or_eq_of_le hnp with hneg | hzero
        · rw [if_pos (Or.inr ⟨hmin, hneg⟩), zero_mul]
        · split_ifs <;> simp [hzero]
  · -- height key present: the target it sets is cleared again
    unfold apply_action
    rw [ha, hv, if_neg hcond]
    dsimp only
    have hq : (get_height_mm cfg
        { set_height_target_mm cfg s hh with target_mm := none } p).1
        = (get_height_mm cfg s p).1 := by
      rw [get_height_mm_fst_target]
      have hset : set_height_target_mm cfg s hh
          = { s with target_mm := some (max cfg.soft_min_mm (min cfg.soft_max_mm hh)) } := by
        simp [set_height_target_mm, hen]
      rw [hset, get_height_mm_fst_target]
    refine ⟨by rw [get_height_mm_snd_target], _, rfl, ?_, ?_⟩
    · split_ifs with hc
      · simpa using habs 0 (by simpa using hvm)
      · exact habs _ (clamp_abs_le cfg.v_max hvm (pyInt v))
    · intro hb
      rw [← hq] at hb
      set v1 : ℤ := max (-cfg.v_max) (min cfg.v_max (pyInt v)) with hv1
      rcases hb with ⟨hmax, h0⟩ | ⟨hmin, h0⟩
      · have hnn : 0 ≤ v1 := le_trans (le_min hvm (hpynn h0)) (le_max_right _ _)
        rcases lt_or_eq_of_le hnn with hpos | hzero
        · rw [if_pos (Or.inl ⟨hmax, hpos⟩), zero_mul]
        · split_ifs <;> simp [← hzero]
      · have hnp : v1 ≤ 0 := max_le (by omega) (le_trans (min_le_right _ _) (hpynp h0))
        rcases lt_or_eq_of_le hnp with hneg | hzero
        · rw [if_pos (Or.inr ⟨hmin, hneg⟩), zero_mul]
        · split_ifs <;> simp [hzero]

/-- A state standing at 700 mm, above the default 600 mm soft maximum. -/
def sAtMax : LiftState := { enabled := true, z0_deg := -3000 }

theorem C7_witness :
    (apply_action cfgDefault sAtMax ⟨none, some 5⟩ (some 0)).2
      = [BusWrite.goalVelocity ((0 : ℤ) : ℚ)] := by
  obtain ⟨htgt, w, hw1, hw2, hw3⟩ :=
    C7_direct_velocity cfgDefault sAtMax ⟨none, some 5⟩ 5 0 rfl rfl
      (Or.inr rfl) (by norm_num [cfgDefault])
  rw [hw1, hw3]
  left
  constructor
  · norm_num [get_height_mm, sAtMax, update_extended_ticks, extended_deg,
      mmPerDeg, degPerTick, ticksPerRev, cfgDefault]
  · norm_num

/-- Claim C8: on an enabled not-yet-configured axis, configure writes the
operating mode, seeds last_tick from the position read and zeroes the
extended tick accumulator, and every call on an already configured axis is
a no-op that performs no bus write and leaves the state unchanged. -/
theorem C8_configure_once (s : LiftState) (p p2 : ℚ)
    (hen : s.enabled = true) (hc : s.configured = false) :
    ((configure s p).1.configured = true ∧
     (configure s p).1.last_tick = p ∧
     (configure s p).1.extended_ticks = 0 ∧
     (configure s p).2 = [BusWrite.opMode]) ∧
    ∀ s2 : LiftState, s2.configured = true → configure s2 p2 = (s2, []) := by
  constructor
  · simp [configure, hen, hc]
  · intro s2 h2
    cases hen2 : s2.enabled <;> simp [configure, hen2, h2]

theorem C8_witness : (configure (mkLiftAxis cfgDefault true) 5).1.configured = true :=
  (C8_configure_once (mkLiftAxis cfgDefault true) 5 7 rfl rfl).1.1

/-- Unrolling one iteration of the homing descent loop. -/
lemma homeLoop_succ (cfg : LiftCfg) (uc : Bool) (sim : HomeSim)
    (fuel pIdx cIdx : ℕ) (s : LiftState) (lastT : ℚ) (stuck : ℕ) :
    homeLoop cfg uc sim (fuel + 1) pIdx cIdx s lastT stuck
      = (let r := homeIter cfg uc (sim.pos pIdx) (sim.cur cIdx) s lastT stuck
         if r.brk then (r.s, pIdx + 1)
         else homeLoop cfg uc sim fuel (pIdx + 1)
           (cIdx + (if uc then 1 else 0)) r.s r.lastT r.stuck) := rfl

/-- Simulated bus in which the motor is stalled from the start: the encoder
always reads 500 ticks and the Present_Current raw reading is 20
(20 * 6.5 = 130 mA, above the 60 mA stall threshold). -/
def homeSimStall : HomeSim := ⟨fun _ => 500, fun _ => some 20⟩

lemma configure_enabled (s : LiftState) (p : ℚ) :
    (configure s p).1.enabled = s.enabled := by
  unfold configure; split_ifs <;> rfl

lemma homeLoop_enabled (cfg : LiftCfg) (uc : Bool) (sim : HomeSim) :
    ∀ (fuel pIdx cIdx : ℕ) (s : LiftState) (lastT : ℚ) (stuck : ℕ),
      (homeLoop cfg uc sim fuel pIdx cIdx s lastT stuck).1.enabled = s.enabled := by
  intro fuel
  induction fuel with
  | zero => intro pIdx cIdx s lastT stuck; rfl
  | succ f ih =>
    intro pIdx cIdx s lastT stuck
    rw [homeLoop_succ]
    dsimp only
    split_ifs
    · exact update_extended_ticks_enabled s _
    · rw [ih]
      exact update_extended_ticks_enabled s _
    · rw [ih]
      exact update_extended_ticks_enabled s _

/-- A position read equal to the stored reference leaves the state
unchanged. -/
lemma update_extended_ticks_fixed (s : LiftState) (c : ℚ)
    (hen : s.enabled = true) (hl : s.last_tick = c) :
    update_extended_ticks s c = s := by
  rcases s with ⟨en, lt, et, z0, tm, cf⟩
  simp only [LiftState.enabled] at hen
  simp only [LiftState.last_tick] at hl
  subst hen hl
  simp [update_extended_ticks, ticksPerRev]
  norm_num

/-- A state whose zero reference equals its own extended angle reads height
0 at an unchanged encoder. -/
lemma get_height_mm_self (cfg : LiftCfg) (s : LiftState) (p : ℚ)
    (hen : s.enabled = true) (hl : s.last_tick = p)
    (hz : s.z0_deg = extended_deg cfg s) :
    get_height_mm cfg s p = (0, s) := by
  unfold get_height_mm
  rw [hen]
  simp only [Bool.not_true, Bool.false_eq_true, if_false,
    update_extended_ticks_fixed s p hen hl]
  rw [hz, sub_self, zero_mul]

/-- On a simulated bus whose encoder reading is the constant p, home ends by
setting the zero reference to the current extended angle: the final state
reads height exactly 0 at the unchanged encoder, its zero reference equals
its own extended angle, and the writes performed include disabling
torque. -/
lemma home_const_props (cfg : LiftCfg) (uc : Bool) (p : ℚ) (cur : ℕ → Option ℚ)
    (s : LiftState) (hen : s.enabled = true) :
    (get_height_mm cfg (home cfg uc ⟨fun _ => p, cur⟩ s).1 p).1 = 0 ∧
    (home cfg uc ⟨fun _ => p, cur⟩ s).1.z0_deg
      = extended_deg cfg (home cfg uc ⟨fun _ => p, cur⟩ s).1 ∧
    BusWrite.torqueEnable 0 ∈ (home cfg uc ⟨fun _ => p, cur⟩ s).2 := by
  unfold home
  rw [if_neg (by rw [hen]; simp)]
  dsimp only
  set X := (homeLoop cfg uc ⟨fun _ => p, cur⟩ 600
      ((if s.configured = true then 0 else 1) + 1) 0 (configure s p).1
      ((pyInt p : ℤ) : ℚ) 0).1 with hX
  have hXe : X.enabled = true := by
    rw [hX, homeLoop_enabled, configure_enabled]
    exact hen
  set s2 := update_extended_ticks X p with hs2
  have hs2e : s2.enabled = true := by
    rw [hs2, update_extended_ticks_enabled]
    exact hXe
  have hs2l : s2.last_tick = p := by
    rw [hs2, update_extended_ticks_last X hXe]
  set s3 : LiftState := { s2 with z0_deg := extended_deg cfg s2 } with hs3
  have hs3e : s3.enabled = true := hs2e
  have hs3l : s3.last_tick = p := hs2l
  have hz : s3.z0_deg = extended_deg cfg s3 := by
    rw [hs3]
    rfl
  have hg : get_height_mm cfg s3 p = (0, s3) :=
    get_height_mm_self cfg s3 p hs3e hs3l hz
  rw [hg]
  refine ⟨?_, rfl, by simp⟩
  dsimp only
  rw [hg]

/-- Claim C4: in the homing descent a single iteration satisfying the stall
condition does not terminate the loop (the debounce counter reaches only 1)
and a non-stall iteration resets the counter, while a stall iteration whose
predecessor also stalled breaks the loop; on the simulated stalled bus the
full home run disables torque, re-samples the ticks, sets the zero
reference to the current extended angle, and an immediately following
height query (encoder unchanged) returns 0, within the on-target tolerance
of 0. -/
theorem C4_home_debounce (cfg : LiftCfg) (s : LiftState)
    (posRead lastT : ℚ) (curRead : Option ℚ) (hen : s.enabled = true) :
    ((homeIter cfg true posRead curRead s lastT 0).brk = false) ∧
    (|posRead - lastT| ≤ 10 → (homeIter cfg true posRead curRead s lastT 1).brk = true) ∧
    (∀ stuck : ℕ, |posRead - lastT| > 10 →
      (homeIter cfg false posRead curRead s lastT stuck).stuck = 0) ∧
    (BusWrite.torqueEnable 0
        ∈ (home cfgDefault true homeSimStall (mkLiftAxis cfgDefault true)).2 ∧
     (get_height_mm cfgDefault
        (home cfgDefault true homeSimStall (mkLiftAxis cfgDefault true)).1 500).1 = 0 ∧
     |(get_height_mm cfgDefault
        (home cfgDefault true homeSimStall (mkLiftAxis cfgDefault true)).1 500).1|
        ≤ cfgDefault.on_target_mm) := by
  refine ⟨?_, ?_, ?_, ?_⟩
  · simp only [homeIter]
    split_ifs <;> rfl
  · intro h
    have hm : decide (|posRead - lastT| > 10) = false :=
      decide_eq_false (not_lt.mpr h)
    simp [homeIter, update_extended_ticks_last s hen, hm]
  · intro stuck h
    have hm : decide (|posRead - lastT| > 10) = true := decide_eq_true h
    simp [homeIter, update_extended_ticks_last s hen, hm]
  · have h := home_const_props cfgDefault true 500 (fun _ => some 20)
      (mkLiftAxis cfgDefault true) rfl
    simp only [homeSimStall]
    exact ⟨h.2.2, h.1, by rw [h.1]; norm_num [cfgDefault]⟩

theorem C4_witness : (homeIter cfgDefault true 500 none sIdle 500 0).brk = false :=
  (C4_home_debounce cfgDefault sIdle 500 500 none rfl).1

/-- Claim C9: during the homing loop with use_current enabled, an exception
on the Present_Current read (curRead = none) is caught and is equivalent to
reading a current of 0, so for that iteration the stall decision reduces to
the movement-only criterion (position advanced by at most 10 ticks) and the
loop continues instead of propagating the error. -/
theorem C9_current_exception_caught (cfg : LiftCfg) (s : LiftState)
    (posRead lastT : ℚ) (stuck : ℕ)
    (hen : s.enabled = true) (hth : 0 < cfg.home_stall_current_ma) :
    homeIter cfg true posRead none s lastT stuck
      = homeIter cfg true posRead (some 0) s lastT stuck ∧
    (homeIter cfg true posRead none s lastT stuck).stuck
      = (if |posRead - lastT| ≤ 10 then stuck + 1 else 0) := by
  have hdec : decide ((cfg.home_stall_current_ma : ℚ) ≤ 0) = false :=
    decide_eq_false (by push_neg; exact_mod_cast hth)
  constructor
  · simp [homeIter, pyInt]
  · rcases le_or_lt (|posRead - lastT|) 10 with h | h
    · have hm : decide (|posRead - lastT| > 10) = false :=
        decide_eq_false (not_lt.mpr h)
      simp [homeIter, update_extended_ticks_last s hen, hdec, hm, h]
    · have hm : decide (|posRead - lastT| > 10) = true := decide_eq_true h
      simp [homeIter, update_extended_ticks_last s hen, hdec, hm, not_le.mpr h]
      exact hth

theorem C9_witness : (homeIter cfgDefault true 500 none sIdle 500 0).stuck = 1 := by
  have h := C9_current_exception_caught cfgDefault sIdle 500 500 0 rfl (by decide)
  simpa using h.2

/-- Claim C10: a freshly constructed enabled LiftAxis has a pending height
target of 0.0 mm rather than None, and consequently the first update after
configure, at any encoder reading whose resulting height differs from 0 by
more than on_target_mm, writes a nonzero Goal_Velocity to the bus although
no target was ever requested. -/
theorem C10_initial_target_zero (pos : ℚ)
    (hfar : cfgDefault.on_target_mm <
      |(0 : ℚ) - (get_height_mm cfgDefault
        ((configure (mkLiftAxis cfgDefault true) 0).1) pos).1|) :
    (mkLiftAxis cfgDefault true).target_mm = some 0 ∧
    ∃ w : ℚ, (update cfgDefault ((configure (mkLiftAxis cfgDefault true) 0).1) pos).2
        = [BusWrite.goalVelocity w] ∧ w ≠ 0 := by
  refine ⟨rfl, ?_⟩
  set s1 := (configure (mkLiftAxis cfgDefault true) 0).1 with hs1
  have hen : s1.enabled = true := by rw [hs1]; decide
  have ht : s1.target_mm = some 0 := by rw [hs1]; decide
  have herr : ¬ (|(0 : ℚ) - (get_height_mm cfgDefault s1 pos).1|
      ≤ cfgDefault.on_target_mm) := not_le.mpr hfar
  rw [update_far cfgDefault s1 pos 0 hen ht herr]
  set e : ℚ := (0 : ℚ) - (get_height_mm cfgDefault s1 pos).1 with he
  have habs : (1 : ℚ) < |e| := hfar
  refine ⟨_, rfl, ?_⟩
  have hd : (cfgDefault.dir_sign : ℚ) = -1 := by norm_num [cfgDefault]
  have hv : (cfgDefault.v_max : ℚ) = 1000 := by norm_num [cfgDefault]
  have hk : cfgDefault.kp_vel = 300 := rfl
  rw [hd, hv, hk]
  rcases lt_abs.mp habs with h1 | h1
  · -- error above 1 mm: the clamped proportional term is at least 300
    have hmin : (300 : ℚ) ≤ min 1000 (300 * e) := le_min (by norm_num) (by linarith)
    have h2 : (300 : ℚ) ≤ max (-1000) (min 1000 (300 * e)) :=
      le_trans hmin (le_max_right _ _)
    have h3 : (-1 : ℚ) * max (-1000) (min 1000 (300 * e)) ≤ -300 := by linarith
    have h4 : pyInt ((-1 : ℚ) * max (-1000) (min 1000 (300 * e))) ≤ -300 := by
      rw [pyInt, if_pos (by linarith : (-1 : ℚ) * max (-1000) (min 1000 (300 * e)) < 0)]
      exact Int.ceil_le.mpr (by exact_mod_cast h3)
    have h5 : pyInt ((-1 : ℚ) * max (-1000) (min 1000 (300 * e))) ≠ 0 := by omega
    exact_mod_cast Int.cast_ne_zero.mpr h5
  · -- error below -1 mm: the clamped proportional term is at most -300
    have he1 : e < -1 := by linarith
    have hmin : min (1000 : ℚ) (300 * e) = 300 * e := min_eq_right (by linarith)
    have h2 : max (-1000 : ℚ) (min 1000 (300 * e)) ≤ -300 := by
      rw [hmin]; exact max_le (by norm_num) (by linarith)
    have h3 : (300 : ℚ) ≤ (-1 : ℚ) * max (-1000) (min 1000 (300 * e)) := by linarith
    have h4 : (300 : ℤ) ≤ pyInt ((-1 : ℚ) * max (-1000) (min 1000 (300 * e))) := by
      rw [pyInt, if_neg (by push_neg; linarith :
        ¬ ((-1 : ℚ) * max (-1000) (min 1000 (300 * e)) < 0))]
      exact Int.le_floor.mpr (by exact_mod_cast h3)
    have h5 : pyInt ((-1 : ℚ) * max (-1000) (min 1000 (300 * e))) ≠ 0 := by omega
    exact_mod_cast Int.cast_ne_zero.mpr h5

theorem C10_witness :
    (cfgDefault.on_target_mm <
      |(0 : ℚ) - (get_height_mm cfgDefault
        ((configure (mkLiftAxis cfgDefault true) 0).1) 100).1|) ∧
    (mkLiftAxis cfgDefault true).target_mm = some 0 :=
  ⟨by norm_num [get_height_mm, configure, mkLiftAxis, update_extended_ticks,
      extended_deg, mmPerDeg, degPerTick, ticksPerRev, cfgDefault, abs_of_pos],
   (C10_initial_target_zero 100 (by
      norm_num [get_height_mm, configure, mkLiftAxis, update_extended_ticks,
        extended_deg, mmPerDeg, degPerTick, ticksPerRev, cfgDefault, abs_of_pos])).1⟩

end AlohaMini

noncomputable section

namespace Wheels

/-!
Embedding of examples/debug/wheels.py over the real numbers: the float
arithmetic of the source is idealised as exact real arithmetic, with the
Python round() on nonnegative values modelled as round half to even.
-/

/-- steps_per_deg = 4096.0 / 360.0 -/
def steps_per_deg : ℝ := 4096 / 360

open Classical in
/-- Python round() applied to a real value: round half to even. -/
def pyRound (x : ℝ) : ℤ :=
  if Int.fract x = 1/2 then (if 2 ∣ ⌊x⌋ then ⌊x⌋ else ⌊x⌋ + 1) else round x

open Classical in
/-- degps_to_raw of wheels.py (the active definition, lines 47-53): the
magnitude in steps per second rounded and clamped to 15 bits, the sign
carried by the sign of the integer, with no sign bit packing. -/
def degps_to_raw (degps : ℝ) : ℤ :=
  let mag0 := pyRound (|degps| * steps_per_deg)
  let mag := if mag0 > 0x7FFF then 0x7FFF else mag0
  if degps < 0 then -mag else mag

/-- raw_to_degps of wheels.py (lines 57-61): the magnitude is
raw_speed & 0x7FFF and the sign comes from raw_speed & 0x8000.  On the
arbitrary precision two complement integers of Python, AND with the low
mask 0x7FFF is exactly the remainder modulo 2^15, and AND with 0x8000 is
nonzero exactly when bit 15 is set, that is when the remainder modulo 2^16
is at least 2^15; the bitwise operations are embedded through these
remainders. -/
def raw_to_degps (raw_speed : ℤ) : ℝ :=
  let magnitude := raw_speed % 32768
  let degps := (magnitude : ℝ) / steps_per_deg
  if raw_speed % 65536 ≥ 32768 then -degps else degps

/-- WHEEL_RADIUS = 0.05 -/
def WHEEL_RADIUS : ℝ := 1/20

/-- BASE_RADIUS = 0.125 -/
def BASE_RADIUS : ℝ := 1/8

/-- MAX_RAW = 3000 -/
def MAX_RAW : ℤ := 3000

/-- The wheel mounting angles np.radians(np.array([240, 0, 120]) - 90). -/
def wheelAngles : Fin 3 → ℝ :=
  ![((240 : ℝ) - 90) * (Real.pi / 180), ((0 : ℝ) - 90) * (Real.pi / 180),
    ((120 : ℝ) - 90) * (Real.pi / 180)]

/-- The projection matrix M with rows [cos a, sin a, base_radius]. -/
def Mmat (base_radius : ℝ) : Matrix (Fin 3) (Fin 3) ℝ :=
  Matrix.of fun i => ![Real.cos (wheelAngles i), Real.sin (wheelAngles i), base_radius]

/-- Per wheel speed in degrees per second before scaling
(body_to_wheel_raw lines 80-89): M applied to [-x, -y, theta_rad], divided
by the wheel radius, converted to degrees per second. -/
def wheelDegps (x y θ R br : ℝ) : Fin 3 → ℝ :=
  fun i => ((Mmat br).mulVec ![-x, -y, θ * (Real.pi / 180)]) i / R * (180 / Real.pi)

/-- Peak of the per wheel raw magnitudes (np.max of raw_abs, line 94). -/
def rawPeak (x y θ R br : ℝ) : ℝ :=
  max (|wheelDegps x y θ R br 0| * steps_per_deg)
    (max (|wheelDegps x y θ R br 1| * steps_per_deg)
      (|wheelDegps x y θ R br 2| * steps_per_deg))

open Classical in
/-- body_to_wheel_raw of wheels.py (lines 66-100); index 0 is left_wheel,
1 is back_wheel, 2 is right_wheel. -/
def body_to_wheel_raw (x y θ R br : ℝ) (max_raw : ℤ) : Fin 3 → ℤ :=
  let w_degps := wheelDegps x y θ R br
  let peak := rawPeak x y θ R br
  let w2 := if (max_raw : ℝ) < peak ∧ 1/1000000 < peak
    then fun i => w_degps i * ((max_raw : ℝ) / peak) else w_degps
  fun i => degps_to_raw (w2 i)

/-- wheel_raw_to_body of wheels.py (lines 103-120): decode each raw value,
convert to linear wheel speed, apply the inverse of M, undo the sign flip
on x and y, convert the angular rate back to degrees per second. -/
def wheel_raw_to_body (wheel_raw : Fin 3 → ℤ) (R br : ℝ) : ℝ × ℝ × ℝ :=
  let w_degps := fun i => raw_to_degps (wheel_raw i)
  let v_lin := fun i => w_degps i * (Real.pi / 180) * R
  let u := (Mmat br)⁻¹.mulVec v_lin
  (-(u 0), -(u 1), u 2 * (180 / Real.pi))

lemma steps_per_deg_pos : 0 < steps_per_deg := by norm_num [steps_per_deg]

lemma round_of_fract_half (x : ℝ) (h : Int.fract x = 1/2) : round x = ⌊x⌋ + 1 := by
  have h2 := Int.floor_add_fract x
  rw [h] at h2
  have hx : x + 1/2 = ((⌊x⌋ + 1 : ℤ) : ℝ) := by push_cast; linarith
  rw [round_eq, hx, Int.floor_intCast]

lemma pyRound_le_round (x : ℝ) : pyRound x ≤ round x := by
  unfold pyRound
  split_ifs with h1 h2
  · rw [round_of_fract_half x h1]; omega
  · rw [round_of_fract_half x h1]
  · exact le_refl _

lemma pyRound_nonneg (x : ℝ) (hx : 0 ≤ x) : 0 ≤ pyRound x := by
  unfold pyRound
  split_ifs with h1 h2
  · exact Int.floor_nonneg.mpr hx
  · have := Int.floor_nonneg.mpr hx; omega
  · rw [round_eq]
    exact Int.floor_nonneg.mpr (by linarith)

lemma round_le_int (x : ℝ) (c : ℤ) (h : x ≤ c) : round x ≤ c := by
  rw [round_eq]
  have h1 : ⌊x + 1/2⌋ ≤ ⌊(1 : ℝ)/2 + c⌋ := Int.floor_le_floor (by linarith)
  rw [Int.floor_add_int] at h1
  norm_num at h1
  exact h1

/-- The encoding never exceeds a bound dominating the raw magnitude. -/
lemma abs_degps_to_raw_le (d : ℝ) (c : ℤ) (h : |d| * steps_per_deg ≤ c) :
    |degps_to_raw d| ≤ c := by
  have h0 : 0 ≤ |d| * steps_per_deg :=
    mul_nonneg (abs_nonneg d) (le_of_lt steps_per_deg_pos)
  have hm0 : 0 ≤ pyRound (|d| * steps_per_deg) := pyRound_nonneg _ h0
  have hmc : pyRound (|d| * steps_per_deg) ≤ c :=
    le_trans (pyRound_le_round _) (round_le_int _ c h)
  have h7 : (0 : ℤ) ≤ 0x7FFF := by norm_num
  simp only [degps_to_raw]
  split_ifs with h1 h2 h3
  · rw [abs_neg, abs_of_nonneg h7]
    omega
  · rw [abs_neg, abs_of_nonneg hm0]
    exact hmc
  · rw [abs_of_nonneg h7]
    omega
  · rw [abs_of_nonneg hm0]
    exact hmc

lemma raw_abs_le_peak (x y θ R br : ℝ) (i : Fin 3) :
    |wheelDegps x y θ R br i| * steps_per_deg ≤ rawPeak x y θ R br := by
  fin_cases i
  · exact le_max_left _ _
  · exact le_trans (le_max_left _ _) (le_max_right _ _)
  · exact le_trans (le_max_right _ _) (le_max_right _ _)

/-- Claim C3: for all inputs and positive geometry, every raw command
returned by body_to_wheel_raw has absolute value at most max_raw: the
uniform scaling caps the peak raw magnitude at max_raw, and the encoding
cannot raise a magnitude above that bound. -/
theorem C3_raw_bounded (x y θ R br : ℝ) (max_raw : ℤ)
    (hR : 0 < R) (hbr : 0 < br) (hm : 0 < max_raw) :
    ∀ i, |body_to_wheel_raw x y θ R br max_raw i| ≤ max_raw := by
  intro i
  simp only [body_to_wheel_raw]
  by_cases hc : (max_raw : ℝ) < rawPeak x y θ R br ∧ 1/1000000 < rawPeak x y θ R br
  · rw [if_pos hc]
    apply abs_degps_to_raw_le
    have hpeak0 : 0 < rawPeak x y θ R br := lt_trans (by norm_num) hc.2
    have hfac : 0 ≤ (max_raw : ℝ) / rawPeak x y θ R br :=
      div_nonneg (by exact_mod_cast le_of_lt hm) (le_of_lt hpeak0)
    have heq : |wheelDegps x y θ R br i * ((max_raw : ℝ) / rawPeak x y θ R br)|
          * steps_per_deg
        = (|wheelDegps x y θ R br i| * steps_per_deg)
          * ((max_raw : ℝ) / rawPeak x y θ R br) := by
      rw [abs_mul, abs_of_nonneg hfac]
      ring
    rw [heq]
    calc (|wheelDegps x y θ R br i| * steps_per_deg)
          * ((max_raw : ℝ) / rawPeak x y θ R br)
        ≤ rawPeak x y θ R br * ((max_raw : ℝ) / rawPeak x y θ R br) :=
          mul_le_mul_of_nonneg_right (raw_abs_le_peak x y θ R br i) hfac
      _ = (max_raw : ℝ) := by field_simp
  · rw [if_neg hc]
    apply abs_degps_to_raw_le
    have hone : (1 : ℝ) ≤ (max_raw : ℝ) := by exact_mod_cast hm
    have hple : rawPeak x y θ R br ≤ (max_raw : ℝ) := by
      by_contra hgt
      push_neg at hgt
      exact hc ⟨hgt, by linarith⟩
    exact le_trans (raw_abs_le_peak x y θ R br i) hple

theorem C3_witness :
    (0 : ℝ) < WHEEL_RADIUS ∧ (0 : ℝ) < BASE_RADIUS ∧ (0 : ℤ) < MAX_RAW ∧
    ∀ i, |body_to_wheel_raw 1 0 0 WHEEL_RADIUS BASE_RADIUS MAX_RAW i| ≤ MAX_RAW :=
  ⟨by norm_num [WHEEL_RADIUS], by norm_num [BASE_RADIUS], by norm_num [MAX_RAW],
   C3_raw_bounded 1 0 0 WHEEL_RADIUS BASE_RADIUS MAX_RAW
     (by norm_num [WHEEL_RADIUS]) (by norm_num [BASE_RADIUS])
     (by norm_num [MAX_RAW])⟩

lemma mulVec_theta (br t : ℝ) (i : Fin 3) :
    (Mmat br).mulVec ![0, 0, t] i = br * t := by
  fin_cases i <;>
    simp [Mmat, Matrix.mulVec, Matrix.dotProduct, Fin.sum_univ_three]

lemma wheelDegps_theta_eval (i : Fin 3) :
    wheelDegps 0 0 (-80) WHEEL_RADIUS BASE_RADIUS i = -200 := by
  unfold wheelDegps
  have h1 : (Mmat BASE_RADIUS).mulVec ![-(0 : ℝ), -0, (-80) * (Real.pi / 180)] i
      = BASE_RADIUS * ((-80) * (Real.pi / 180)) := by
    have h2 : (![-(0 : ℝ), -0, (-80) * (Real.pi / 180)])
        = ![(0 : ℝ), 0, (-80) * (Real.pi / 180)] := by norm_num
    rw [h2, mulVec_theta]
  rw [h1, WHEEL_RADIUS, BASE_RADIUS]
  have hpi := Real.pi_ne_zero
  field_simp
  ring

lemma rawPeak_theta_eval :
    rawPeak 0 0 (-80) WHEEL_RADIUS BASE_RADIUS = 200 * steps_per_deg := by
  unfold rawPeak
  rw [wheelDegps_theta_eval 0, wheelDegps_theta_eval 1, wheelDegps_theta_eval 2]
  rw [abs_of_nonpos (by norm_num : (-200 : ℝ) ≤ 0)]
  simp [max_self]

lemma pyRound_at_200 : pyRound (200 * steps_per_deg) = 2276 := by
  have h1 : (200 : ℝ) * steps_per_deg = 20480/9 := by norm_num [steps_per_deg]
  rw [h1]
  have hfl : ⌊(20480/9 : ℝ)⌋ = 2275 := by norm_num
  unfold pyRound
  rw [if_neg]
  · rw [round_eq]
    norm_num
  · simp only [Int.fract, hfl]
    norm_num

lemma degps_to_raw_neg200 : degps_to_raw (-200) = -2276 := by
  simp only [degps_to_raw]
  rw [abs_of_nonpos (by norm_num : (-200 : ℝ) ≤ 0), neg_neg, pyRound_at_200]
  norm_num

/-- The three raw wheel commands for the body input (0, 0, -80 deg/s) with
the default geometry: all equal to -2276. -/
lemma body_to_wheel_raw_eval (i : Fin 3) :
    body_to_wheel_raw 0 0 (-80) WHEEL_RADIUS BASE_RADIUS MAX_RAW i = -2276 := by
  simp only [body_to_wheel_raw]
  rw [if_neg]
  · rw [wheelDegps_theta_eval i, degps_to_raw_neg200]
  · rw [rawPeak_theta_eval]
    intro hx
    have h1 := hx.1
    norm_num [steps_per_deg, MAX_RAW] at h1

/-- The stale sign bit decoder misreads the negative raw value -2276: the
low 15 bits of its two complement form are 30492, not 2276. -/
lemma raw_to_degps_neg2276 : raw_to_degps (-2276) = -(30492 / steps_per_deg) := by
  simp only [raw_to_degps]
  rw [show ((-2276 : ℤ) % 32768) = 30492 from by decide]
  rw [if_pos (by decide : ((-2276 : ℤ) % 65536) ≥ 32768)]
  norm_num

lemma wheelAngles_eval0 : wheelAngles 0 = Real.pi - Real.pi/6 := by
  show ((240 : ℝ) - 90) * (Real.pi / 180) = Real.pi - Real.pi/6
  ring

lemma wheelAngles_eval1 : wheelAngles 1 = -(Real.pi/2) := by
  show ((0 : ℝ) - 90) * (Real.pi / 180) = -(Real.pi/2)
  ring

lemma wheelAngles_eval2 : wheelAngles 2 = Real.pi/6 := by
  show ((120 : ℝ) - 90) * (Real.pi / 180) = Real.pi/6
  ring

lemma cos_a0 : Real.cos (wheelAngles 0) = -(Real.sqrt 3 / 2) := by
  rw [wheelAngles_eval0, Real.cos_pi_sub, Real.cos_pi_div_six]

lemma sin_a0 : Real.sin (wheelAngles 0) = 1/2 := by
  rw [wheelAngles_eval0, Real.sin_pi_sub, Real.sin_pi_div_six]

lemma cos_a1 : Real.cos (wheelAngles 1) = 0 := by
  rw [wheelAngles_eval1, Real.cos_neg, Real.cos_pi_div_two]

lemma sin_a1 : Real.sin (wheelAngles 1) = -1 := by
  rw [wheelAngles_eval1, Real.sin_neg, Real.sin_pi_div_two]

lemma cos_a2 : Real.cos (wheelAngles 2) = Real.sqrt 3 / 2 := by
  rw [wheelAngles_eval2, Real.cos_pi_div_six]

lemma sin_a2 : Real.sin (wheelAngles 2) = 1/2 := by
  rw [wheelAngles_eval2, Real.sin_pi_div_six]

lemma Mmat_det (br : ℝ) : (Mmat br).det = 3 * Real.sqrt 3 / 2 * br := by
  rw [Matrix.det_fin_three]
  simp only [Mmat, Matrix.of_apply, Matrix.cons_val_zero, Matrix.cons_val_one,
    Matrix.head_cons, Matrix.cons_val_two, Matrix.tail_cons]
  rw [cos_a0, sin_a0, cos_a1, sin_a1, cos_a2, sin_a2]
  ring

lemma Mmat_det_ne (br : ℝ) (h : br ≠ 0) : (Mmat br).det ≠ 0 := by
  rw [Mmat_det]
  have h3 : (0 : ℝ) < Real.sqrt 3 := Real.sqrt_pos.mpr (by norm_num)
  exact mul_ne_zero (by positivity) h

/-- Applying the inverse projection matrix to a constant vector yields a
pure rotation component. -/
lemma Minv_const (br c : ℝ) (h : br ≠ 0) :
    (Mmat br)⁻¹.mulVec (fun _ : Fin 3 => c) = ![0, 0, c / br] := by
  have hM : (Mmat br).mulVec ![0, 0, c / br] = fun _ : Fin 3 => c := by
    funext i
    rw [mulVec_theta]
    field_simp
  calc (Mmat br)⁻¹.mulVec (fun _ : Fin 3 => c)
      = (Mmat br)⁻¹.mulVec ((Mmat br).mulVec ![0, 0, c / br]) := by rw [hM]
    _ = ((Mmat br)⁻¹ * Mmat br).mulVec ![0, 0, c / br] := by
        rw [Matrix.mulVec_mulVec]
    _ = (1 : Matrix (Fin 3) (Fin 3) ℝ).mulVec ![0, 0, c / br] := by
        rw [Matrix.nonsing_inv_mul _ (isUnit_iff_ne_zero.mpr (Mmat_det_ne br h))]
    _ = ![0, 0, c / br] := Matrix.one_mulVec _

/-- Claim C1 evaluation: the round trip at the body velocity (0, 0, -80),
whose wheel raw commands are all the negative value -2276, does not return
approximately (0, 0, -80): the recovered rotation rate is -68607/64 =
-1071.984375 deg/s, off by far more than any fixed point rounding
tolerance, because raw_to_degps decodes the sign from bit 15 while
degps_to_raw encodes the sign as the sign of the integer. -/
theorem C1_roundtrip_fails :
    wheel_raw_to_body (body_to_wheel_raw 0 0 (-80) WHEEL_RADIUS BASE_RADIUS MAX_RAW)
        WHEEL_RADIUS BASE_RADIUS
      = (0, 0, -68607/64) ∧
    (10 : ℝ) < |(-68607/64 : ℝ) - (-80)| := by
  constructor
  · simp only [wheel_raw_to_body]
    have hv : (fun i : Fin 3 =>
        raw_to_degps (body_to_wheel_raw 0 0 (-80) WHEEL_RADIUS BASE_RADIUS MAX_RAW i)
          * (Real.pi / 180) * WHEEL_RADIUS)
        = fun _ : Fin 3 =>
            -(30492 / steps_per_deg) * (Real.pi / 180) * WHEEL_RADIUS := by
      funext i
      rw [body_to_wheel_raw_eval i, raw_to_degps_neg2276]
    rw [hv, Minv_const BASE_RADIUS _ (by norm_num [BASE_RADIUS])]
    refine Prod.ext ?_ (Prod.ext ?_ ?_)
    · show -(![(0 : ℝ), 0, _] 0) = 0
      norm_num
    · show -(![(0 : ℝ), 0, _] 1) = 0
      norm_num
    · show (![(0 : ℝ), 0, -(30492 / steps_per_deg) * (Real.pi / 180) * WHEEL_RADIUS
          / BASE_RADIUS] 2) * (180 / Real.pi) = -68607/64
      rw [show (![(0 : ℝ), 0, -(30492 / steps_per_deg) * (Real.pi / 180) * WHEEL_RADIUS
          / BASE_RADIUS] 2) = -(30492 / steps_per_deg) * (Real.pi / 180) * WHEEL_RADIUS
          / BASE_RADIUS from rfl]
      rw [steps_per_deg, WHEEL_RADIUS, BASE_RADIUS]
      have hpi := Real.pi_ne_zero
      field_simp
      ring
  · have h : (-68607/64 : ℝ) - (-80) = -(63487/64) := by norm_num
    rw [h, abs_neg, abs_of_nonneg (by norm_num : (0 : ℝ) ≤ 63487/64)]
    norm_num

end Wheels

end
